import Mathlib

/-!
Verification of the coordinate-representation library (`coordinax` excerpt).

The embedding follows the Python source in `src/coordinax/_base.py`,
`src/coordinax/_base_dif.py`, `src/coordinax/_dn/base.py` and
`src/vector/_d2/compat.py`.  Vectors are ordered records of named
components; each component is a `Quantity` (an array of rationals tagged
with a physical unit).  The `Quantity` adapter itself is an external
collaborator of the library and is modelled from its interface contract
in the spec (value + unit with arithmetic, same-dimension unit
conversion, broadcasting, stacking).
-/

namespace Coordinax

/-- Modelled from the spec: a physical unit of the external Quantity
adapter, carrying its physical dimension (`physical_type`) and a positive
conversion factor to a fixed base unit of that dimension. -/
structure PhysUnit where
  dim : String
  scale : ℚ
deriving DecidableEq, Repr

/-- Modelled from the spec: a `Quantity` of the external adapter — an
N-dimensional array of numeric values (C-order flat data plus a shape)
tagged with a physical unit. -/
structure Quantity where
  shape : List ℕ
  data : List ℚ
  unit : PhysUnit
deriving DecidableEq, Repr

/-- Conversion of the stored values to another unit of the same
dimension: multiply by the ratio of the conversion factors. -/
def Quantity.convertTo (q : Quantity) (u : PhysUnit) : Quantity :=
  ⟨q.shape, q.data.map (fun x => x * (q.unit.scale / u.scale)), u⟩

/-- Modelled from the spec: `Quantity.to_units` converts to a unit of the
same physical dimension and fails otherwise. -/
def Quantity.to_units (q : Quantity) (u : PhysUnit) : Except String Quantity :=
  if q.unit.dim = u.dim then .ok (q.convertTo u) else .error "UnitConversionError"

/-- Modelled from the spec: addition of Quantities; the right operand is
converted to the left operand's unit (same physical dimension required).
Only the equal-shape case is needed by the library code under study. -/
def Quantity.addQ (a b : Quantity) : Except String Quantity :=
  if a.unit.dim = b.unit.dim then
    if a.shape = b.shape then
      .ok ⟨a.shape, List.zipWith (fun x y => x + y * (b.unit.scale / a.unit.scale)) a.data b.data,
        a.unit⟩
    else .error "shape mismatch"
  else .error "UnitConversionError"

/-- Modelled from the spec: subtraction of Quantities, as `addQ`. -/
def Quantity.subQ (a b : Quantity) : Except String Quantity :=
  if a.unit.dim = b.unit.dim then
    if a.shape = b.shape then
      .ok ⟨a.shape, List.zipWith (fun x y => x - y * (b.unit.scale / a.unit.scale)) a.data b.data,
        a.unit⟩
    else .error "shape mismatch"
  else .error "UnitConversionError"

/-- Modelled from the spec: units multiply (dimensions and conversion
factors combine) when two Quantities are multiplied. -/
def PhysUnit.mulU (a b : PhysUnit) : PhysUnit :=
  ⟨a.dim ++ "*" ++ b.dim, a.scale * b.scale⟩

/-- Modelled from the spec: multiplication of an array Quantity by a
scalar (0-dimensional) Quantity; values multiply and units combine. -/
def Quantity.mulQ (a b : Quantity) : Quantity :=
  ⟨a.shape, a.data.map (fun x => x * b.data.getD 0 0), a.unit.mulU b.unit⟩

/-- Scaling of the values by a plain number, keeping the unit. -/
def Quantity.smul (c : ℚ) (q : Quantity) : Quantity :=
  ⟨q.shape, q.data.map (fun x => c * x), q.unit⟩

/-- The Quantity with the same shape and unit and all values zero. -/
def Quantity.zeroLike (q : Quantity) : Quantity :=
  ⟨q.shape, q.data.map (fun _ => 0), q.unit⟩

/-- Indexing `obj[..., i]` of the source: select entry `i` of the
trailing axis, keeping the leading (batch) axes. -/
def Quantity.sliceLast (q : Quantity) (i : ℕ) : Quantity :=
  let n := q.shape.getLastD 1
  ⟨q.shape.dropLast,
   (List.range q.shape.dropLast.prod).map (fun j => q.data.getD (j * n + i) 0),
   q.unit⟩

/-- Array reshape: succeeds exactly when the total number of elements is
unchanged; the C-order flat data is untouched. -/
def Quantity.reshapeQ (q : Quantity) (s : List ℕ) : Except String Quantity :=
  if s.prod = q.shape.prod then .ok ⟨s, q.data, q.unit⟩
  else .error "TypeError: cannot reshape array"

/-- C-order encoding of a multi-index into a flat index. -/
def flattenIdx (shape idx : List ℕ) : ℕ :=
  (shape.zip idx).foldl (fun acc p => acc * p.1 + p.2) 0

/-- C-order decoding of a flat index into a multi-index. -/
def unflattenIdx (shape : List ℕ) (k : ℕ) : List ℕ :=
  (shape.reverse.foldl (fun (acc : List ℕ × ℕ) d => ((acc.2 % d) :: acc.1, acc.2 / d)) ([], k)).1

/-- NumPy-style broadcasting of two shapes: align from the right, pad the
shorter shape with 1s, sizes must agree or one of them be 1. -/
def broadcast2 (a b : List ℕ) : Option (List ℕ) :=
  let n := max a.length b.length
  let a' := List.replicate (n - a.length) 1 ++ a
  let b' := List.replicate (n - b.length) 1 ++ b
  (a'.zip b').mapM (fun p =>
    if p.1 = p.2 then some p.1
    else if p.1 = 1 then some p.2
    else if p.2 = 1 then some p.1
    else none)

/-- Materialize a Quantity at a broadcast shape `s` (trailing-aligned;
axes of size 1 repeat their single entry). -/
def Quantity.broadcastTo (q : Quantity) (s : List ℕ) : Quantity :=
  ⟨s,
   (List.range s.prod).map (fun k =>
     let multi := unflattenIdx s k
     let src := (q.shape.zip (multi.drop (s.length - q.shape.length))).map
       (fun p => if p.1 = 1 then 0 else p.2)
     q.data.getD (flattenIdx q.shape src) 0),
   q.unit⟩

/-- Modelled from the array backend contract: `lax.transpose` accepts
only a true permutation of the operand's axes (a set of integers equal to
`set(range(ndim))`; in particular negative entries are rejected) and
permutes shape and data accordingly. -/
def laxTranspose (q : Quantity) (axes : List ℤ) : Except String Quantity :=
  let n := q.shape.length
  if (List.range n).all (fun i => (i : ℤ) ∈ axes) ∧
      axes.all (fun a => 0 ≤ a ∧ a < (n : ℤ)) then
    let outShape := axes.map (fun a => q.shape.getD a.toNat 0)
    .ok ⟨outShape,
      (List.range outShape.prod).map (fun k =>
        let oidx := unflattenIdx outShape k
        let sidx := (List.range n).map (fun m => oidx.getD (axes.indexOf (m : ℤ)) 0)
        q.data.getD (flattenIdx q.shape sidx) 0),
      q.unit⟩
  else
    .error "TypeError: transpose permutation is not a permutation of operand dimensions"

/-! ### The vector record model

A concrete vector class is a fixed ordered record of named components
(`dataclass` fields).  `VClass` carries the class-level metadata the
claims need: the declared field names, the names of the strict
superclasses (for `isinstance`), and the name of the declared Cartesian
counterpart (`_cartesian_cls`). -/

/-- Class-level metadata of a concrete vector/differential class. -/
structure VClass where
  name : String
  fields : List String
  ancestors : List String
  cartesian : String
deriving DecidableEq, Repr

/-- A vector/differential instance: its class and its ordered named
components (`dataclass_items` order is declared field order). -/
structure Vec where
  cls : VClass
  comps : List (String × Quantity)
deriving DecidableEq, Repr

/-- Python `isinstance(v, C)` where `C` is identified by name: the
instance's class is `C` itself or has `C` among its ancestors. -/
def Vec.isInstName (v : Vec) (n : String) : Bool :=
  v.cls.name = n || n ∈ v.cls.ancestors

/-- Python dataclass construction `cls(**m)`: every declared field must
be supplied exactly once and no extra keyword is accepted; the resulting
components are stored in declared field order. -/
def mkVec (cls : VClass) (m : List (String × Quantity)) : Except String Vec :=
  match cls.fields.mapM (fun f => (m.lookup f).map (fun q => (f, q))) with
  | some comps =>
      if m.length = cls.fields.length then .ok ⟨cls, comps⟩
      else .error "TypeError: unexpected keyword argument"
  | none => .error "TypeError: missing a required argument"

/-- Python `getattr(v, name)` on a component name. -/
def Vec.getattr (v : Vec) (n : String) : Except String Quantity :=
  match v.comps.lookup n with
  | some q => .ok q
  | none => .error ("AttributeError: " ++ n)

/-- Python `dataclasses.replace(v, name=q)`: replaces the named field,
raising a `TypeError` when the name is not a declared field of the
instance's class. -/
def Vec.replaceField (v : Vec) (n : String) (q : Quantity) : Except String Vec :=
  if n ∈ v.comps.map Prod.fst then
    .ok ⟨v.cls, v.comps.map (fun kv => if kv.1 = n then (n, q) else kv)⟩
  else .error ("TypeError: replace() got an unexpected keyword argument " ++ n)

/-! ### `AbstractVectorBase` constructors (`src/coordinax/_base.py`) -/

/-- Mapping overload of `AbstractVectorBase.constructor`:
`return cls(**obj)`. -/
def constructorMapping (cls : VClass) (m : List (String × Quantity)) : Except String Vec :=
  mkVec cls m

/-- Quantity overload of `AbstractVectorBase.constructor`: check
`obj.shape[-1] == len(fields(cls))` (via `eqx.error_if`), then build
`{f.name: obj[..., i] for i, f in enumerate(fields(cls))}` and call
`cls(**comps)`. -/
def constructorQuantity (cls : VClass) (q : Quantity) : Except String Vec :=
  match q.shape.getLast? with
  | none => .error "IndexError: tuple index out of range"
  | some m =>
      if m ≠ cls.fields.length then
        .error ("Cannot construct " ++ cls.name ++ " from array with that shape.")
      else
        mkVec cls (cls.fields.enum.map (fun p => (p.2, q.sliceLast p.1)))

deriving instance DecidableEq for Except

/-- Result of the vector-from-vector constructor overload,
distinguishing the identity-returning branch from rebuilding. -/
inductive FromVecResult
  | typeError (msg : String)
  | sameInstance
  | rebuilt (r : Except String Vec)
deriving DecidableEq, Repr

/-- Vector-from-vector overload of `constructor`: `TypeError` when `obj`
is not an instance of `cls`; the very same instance when `type(obj) is
cls`; otherwise `cls(**dict(dataclass_items(obj)))`. -/
def constructorFromVec (cls : VClass) (obj : Vec) : FromVecResult :=
  if ¬ (obj.isInstName cls.name = true) then
    .typeError ("Cannot construct " ++ cls.name ++ " from " ++ obj.cls.name ++ ".")
  else if obj.cls = cls then
    .sameInstance
  else
    .rebuilt (mkVec cls obj.comps)

/-! ### `to_units(ToUnitsOptions.consistent)` (`src/coordinax/_base.py`) -/

/-- The `units_` dictionary built by the source loop: scan the components
in declared order and record, per physical dimension, the first unit
seen (`if pt not in units_: units_[pt] = v.unit`). -/
def firstUnitsAux (acc : List (String × PhysUnit)) : List (String × Quantity) → List (String × PhysUnit)
  | [] => acc
  | kv :: rest =>
      firstUnitsAux
        (if (acc.lookup kv.2.unit.dim).isSome then acc
         else acc ++ [(kv.2.unit.dim, kv.2.unit)])
        rest

/-- The `ToUnitsOptions.consistent` overload of `to_units`: build
`units_` by first-seen physical dimension, then convert every component
to `units_[component.unit.physical_type]`. -/
def vecToUnitsConsistent (v : Vec) : Except String Vec := do
  let comps ← v.comps.mapM (fun kv =>
    match (firstUnitsAux [] v.comps).lookup kv.2.unit.dim with
    | some u => (kv.2.to_units u).map (fun q => (kv.1, q))
    | none => .error "KeyError")
  pure ⟨v.cls, comps⟩

/-- The unit of the first component of the given physical dimension, in
declared field order (the reference unit the claim describes). -/
def firstUnitOfDim (comps : List (String × Quantity)) (d : String) : Option PhysUnit :=
  (comps.find? (fun kv => kv.2.unit.dim = d)).map (fun kv => kv.2.unit)

/-- The conversion the claim describes for one component: convert it to
the reference unit of its own dimension (the unit of the first component
of that dimension). -/
def consistentComp (comps : List (String × Quantity)) (kv : String × Quantity) :
    String × Quantity :=
  match firstUnitOfDim comps kv.2.unit.dim with
  | some u => (kv.1, kv.2.convertTo u)
  | none => kv

/-- Every unit conversion factor of the instance is positive (the
well-formedness of the external Quantity adapter's units). -/
def unitsPos (v : Vec) : Bool := v.comps.all (fun kv => 0 < kv.2.unit.scale)

/-- The component names of the instance are pairwise distinct (always
true for Python dataclass fields). -/
def nodupKeys (v : Vec) : Bool := (v.comps.map Prod.fst).Nodup

/-! ### `AdditionMixin` (`src/coordinax/_base_dif.py`) -/

/-- `AdditionMixin.__add__`: `TypeError` unless
`isinstance(other, self._cartesian_cls)`, else component-wise
`v + getattr(other, k)` rebuilt into the same class. -/
def vecAdd (self other : Vec) : Except String Vec :=
  if ¬ (other.isInstName self.cls.cartesian = true) then
    .error ("Cannot add " ++ other.cls.name ++ " to " ++ self.cls.cartesian ++ ".")
  else do
    let comps ← self.comps.mapM (fun kv => do
      let ov ← other.getattr kv.1
      (kv.2.addQ ov).map (fun s => (kv.1, s)))
    pure ⟨self.cls, comps⟩

/-- `AdditionMixin.__sub__`: `TypeError` unless
`isinstance(other, self._cartesian_cls)`, else component-wise
`v - getattr(other, k)` rebuilt into the same class. -/
def vecSub (self other : Vec) : Except String Vec :=
  if ¬ (other.isInstName self.cls.cartesian = true) then
    .error ("Cannot subtract " ++ other.cls.name ++ " from " ++ self.cls.cartesian ++ ".")
  else do
    let comps ← self.comps.mapM (fun kv => do
      let ov ← other.getattr kv.1
      (kv.2.subQ ov).map (fun s => (kv.1, s)))
    pure ⟨self.cls, comps⟩

/-! ### `AbstractVectorDifferential` (`src/coordinax/_base_dif.py`) -/

/-- Python string slicing `k[2:]`, used by `__mul__` to strip the
rate-of-change prefix from a differential component name. -/
def pyDrop2 (k : String) : String := ⟨k.data.drop 2⟩

/-- `AbstractVectorDifferential.__mul__` with a Quantity operand:
`self.integral_cls.constructor({k[2:]: v * other for k, v in
dataclass_items(self)})`.  The class-level `integral_cls` metadata is
passed explicitly. -/
def difMulQuantity (integralCls : VClass) (self : Vec) (other : Quantity) :
    Except String Vec :=
  constructorMapping integralCls
    (self.comps.map (fun kv => (pyDrop2 kv.1, kv.2.mulQ other)))

/-- Python values as far as their truthiness is concerned, for the
`any(args)` test of `represent_as`. -/
inductive PyVal
  | pynone
  | pybool (b : Bool)
  | pyint (z : ℤ)
  | pystr (s : String)
deriving DecidableEq, Repr

/-- Python truthiness of a `PyVal`. -/
def PyVal.truthy : PyVal → Bool
  | .pynone => false
  | .pybool b => b
  | .pyint z => z != 0
  | .pystr s => s != ""

/-- `AbstractVectorDifferential.represent_as`: warn (`UserWarning`,
"Extra arguments are ignored.") when `any(args)` is truthy, then return
`represent_as(self, target, position)` from the transform engine, the
extra arguments playing no further part.  The transform engine itself
(`._transform`, not under `src/`) is passed as the `core` parameter; the
function returns the list of emitted warnings with the result. -/
def difRepresentAs (core : Vec → VClass → Vec → Vec) (self : Vec) (target : VClass)
    (position : Vec) (args : List PyVal) : List String × Vec :=
  ((if args.any PyVal.truthy then ["Extra arguments are ignored."] else []),
   core self target position)

/-! ### N-dimensional specialization (`src/coordinax/_dn/base.py`)

`AbstractNDVector` stores its components in the single field `q`,
`AbstractNDVectorDifferential` in the single field `d_q`; the feature
axis is last and `self.shape` is the stacked array's shape without it.
The operations are translated exactly as written, including the field
names passed to `dataclasses.replace` and the attribute reads. -/

/-- `AbstractNDVector.mT`: read `self.q`; raise `ValueError` when
`self.q.ndim < 2`; transpose by
`axes = (*range(ndim - 2), ndim - 2, ndim - 3)`; `replace(self, q=...)`. -/
def ndVecMT (v : Vec) : Except String Vec := do
  let q ← v.getattr "q"
  let ndim := q.shape.length
  if ndim < 2 then
    .error "ValueError: x must be at least two-dimensional for matrix_transpose"
  else do
    let axes : List ℤ :=
      (List.range (ndim - 2)).map (fun i => (i : ℤ)) ++ [(ndim : ℤ) - 2, (ndim : ℤ) - 3]
    let r ← laxTranspose q axes
    v.replaceField "q" r

/-- `AbstractNDVector.flatten`: `replace(self, q=reshape(self.q,
(self.size, self.q.shape[-1]), "C"))` with `self.size` the product of
the batch axes. -/
def ndVecFlatten (v : Vec) : Except String Vec := do
  let q ← v.getattr "q"
  match q.shape.getLast? with
  | none => .error "IndexError: tuple index out of range"
  | some f => do
      let r ← q.reshapeQ [q.shape.dropLast.prod, f]
      v.replaceField "q" r

/-- `AbstractNDVector.reshape`: `replace(self, q=self.q.reshape(*shape,
self.q.shape[-1]))`, the feature axis appended to the target shape. -/
def ndVecReshape (v : Vec) (hape : List ℕ) : Except String Vec := do
  let q ← v.getattr "q"
  match q.shape.getLast? with
  | none => .error "IndexError: tuple index out of range"
  | some f => do
      let r ← q.reshapeQ (hape ++ [f])
      v.replaceField "q" r

/-- `AbstractNDVectorDifferential.mT`: read `self.d_q`; same guard and
axes as the vector version; then `replace(self, q=...)` — the source
passes the field name `q`, which the differential class does not have. -/
def ndDifMT (v : Vec) : Except String Vec := do
  let dq ← v.getattr "d_q"
  let ndim := dq.shape.length
  if ndim < 2 then
    .error "ValueError: x must be at least two-dimensional for matrix_transpose"
  else do
    let axes : List ℤ :=
      (List.range (ndim - 2)).map (fun i => (i : ℤ)) ++ [(ndim : ℤ) - 2, (ndim : ℤ) - 3]
    let r ← laxTranspose dq axes
    v.replaceField "q" r

/-- `AbstractNDVectorDifferential.flatten`: `replace(self,
q=reshape(self.d_q, (self.size, self.d_q.shape[-1]), "C"))` — again the
field name passed to `replace` is `q`, not `d_q`. -/
def ndDifFlatten (v : Vec) : Except String Vec := do
  let dq ← v.getattr "d_q"
  match dq.shape.getLast? with
  | none => .error "IndexError: tuple index out of range"
  | some f => do
      let r ← dq.reshapeQ [dq.shape.dropLast.prod, f]
      v.replaceField "q" r

/-- `AbstractNDVectorDifferential.reshape`: the source reads `self.q`
(`self.q.reshape(*shape, self.q.shape[-1])`), an attribute the
differential class does not have. -/
def ndDifReshape (v : Vec) (hape : List ℕ) : Except String Vec := do
  let q ← v.getattr "q"
  match q.shape.getLast? with
  | none => .error "IndexError: tuple index out of range"
  | some f => do
      let r ← q.reshapeQ (hape ++ [f])
      v.replaceField "q" r

/-! ### 2D conversion glue (`src/vector/_d2/compat.py`) -/

/-- The concrete `Cartesian2DVector` class: components `x`, `y` in
declared order.  Modelled from the spec: the class itself lives in
`_d2/builtin.py`, which is not under `src/`. -/
structure Cartesian2DVector where
  x : Quantity
  y : Quantity
deriving DecidableEq, Repr

/-- The concrete `CartesianDifferential2D` class: components `d_x`,
`d_y`.  Modelled from the spec: the class itself lives in
`_d2/builtin.py`, which is not under `src/`. -/
structure CartesianDifferential2D where
  d_x : Quantity
  d_y : Quantity
deriving DecidableEq, Repr

/-- `full_shaped` on a `Cartesian2DVector`: broadcast every component to
the common broadcast shape. -/
def fullShaped2 (v : Cartesian2DVector) : Except String Cartesian2DVector :=
  match broadcast2 v.x.shape v.y.shape with
  | some s => .ok ⟨v.x.broadcastTo s, v.y.broadcastTo s⟩
  | none => .error "ValueError: incompatible shapes for broadcasting"

/-- `full_shaped` on a `CartesianDifferential2D`. -/
def fullShapedD2 (v : CartesianDifferential2D) : Except String CartesianDifferential2D :=
  match broadcast2 v.d_x.shape v.d_y.shape with
  | some s => .ok ⟨v.d_x.broadcastTo s, v.d_y.broadcastTo s⟩
  | none => .error "ValueError: incompatible shapes for broadcasting"

/-- Modelled from the spec: `xp.stack` of two Quantities along a new
trailing axis; the shapes must agree and the units must share a physical
dimension, the second operand being converted to the first one's unit. -/
def stack2 (a b : Quantity) : Except String Quantity :=
  if a.unit.dim = b.unit.dim then
    if a.shape = b.shape then
      .ok ⟨a.shape ++ [2],
        (List.range a.shape.prod).map (fun j =>
           [a.data.getD j 0, b.data.getD j 0 * (b.unit.scale / a.unit.scale)]) |>.flatten,
        a.unit⟩
    else .error "ValueError: all input arrays must have the same shape"
  else .error "UnitConversionError"

/-- `vec_to_q`, the registered `Abstract2DVector -> Quantity` conversion:
`cart = full_shaped(obj.represent_as(Cartesian2DVector))` then
`xp.stack(tuple(dataclass_values(cart)), axis=-1)`.  The `represent_as`
engine is not under `src/` and is passed as the parameter `repAs`. -/
def vec_to_q {α : Type} (repAs : α → Cartesian2DVector) (obj : α) :
    Except String Quantity := do
  let cart ← fullShaped2 (repAs obj)
  stack2 cart.x cart.y

/-- `vec_diff_to_q`, the registered `CartesianDifferential2D -> Quantity`
conversion: `xp.stack(tuple(dataclass_values(full_shaped(obj))),
axis=-1)` — no representation change. -/
def vec_diff_to_q (obj : CartesianDifferential2D) : Except String Quantity := do
  let f ← fullShapedD2 obj
  stack2 f.d_x f.d_y

/-! ### Concrete instances used to exercise the definitions -/

/-- Metres. -/
def mUnit : PhysUnit := ⟨"length", 1⟩

/-- Kilometres. -/
def kmUnit : PhysUnit := ⟨"length", 1000⟩

/-- Seconds. -/
def sUnit : PhysUnit := ⟨"time", 1⟩

/-- Metres per second. -/
def mpsUnit : PhysUnit := ⟨"speed", 1⟩

/-- Kilometres per second. -/
def kmpsUnit : PhysUnit := ⟨"speed", 1000⟩

/-- A 0-dimensional (scalar) Quantity. -/
def scalarQ (x : ℚ) (u : PhysUnit) : Quantity := ⟨[], [x], u⟩

/-- The `Cartesian2DVector` class: fields `x`, `y`. -/
def cart2cls : VClass := ⟨"Cartesian2DVector", ["x", "y"], [], "Cartesian2DVector"⟩

/-- The `Cartesian3DVector` class: fields `x`, `y`, `z`. -/
def cart3cls : VClass := ⟨"Cartesian3DVector", ["x", "y", "z"], [], "Cartesian3DVector"⟩

/-- A strict subclass of `Cartesian3DVector` with the same fields. -/
def subCart3cls : VClass :=
  ⟨"FancyCartesian3DVector", ["x", "y", "z"], ["Cartesian3DVector"], "Cartesian3DVector"⟩

/-- The `SphericalVector` class, unrelated to the Cartesian ones. -/
def sphcls : VClass := ⟨"SphericalVector", ["r", "theta", "phi"], [], "Cartesian3DVector"⟩

/-- `Cartesian2DVector(x=Quantity(1, "m"), y=Quantity(2, "km"))`, the
mixed-unit vector of the spec's units-consistency example. -/
def exCart2 : Vec := ⟨cart2cls, [("x", scalarQ 1 mUnit), ("y", scalarQ 2 kmUnit)]⟩

/-- `Quantity([1, 2, 3], "m")`. -/
def q123 : Quantity := ⟨[3], [1, 2, 3], mUnit⟩

/-- A concrete `Cartesian3DVector` instance. -/
def exCart3 : Vec :=
  ⟨cart3cls, [("x", scalarQ 1 mUnit), ("y", scalarQ 2 mUnit), ("z", scalarQ 3 mUnit)]⟩

/-- The same components as an instance of the strict subclass. -/
def exSubCart3 : Vec :=
  ⟨subCart3cls, [("x", scalarQ 1 mUnit), ("y", scalarQ 2 mUnit), ("z", scalarQ 3 mUnit)]⟩

/-- The `CartesianDifferential3D` class; its declared Cartesian class is
itself. -/
def dif3cls : VClass :=
  ⟨"CartesianDifferential3D", ["d_x", "d_y", "d_z"], [], "CartesianDifferential3D"⟩

/-- A concrete `CartesianDifferential3D` instance in km/s. -/
def exDif3 : Vec :=
  ⟨dif3cls,
   [("d_x", scalarQ 1 kmpsUnit), ("d_y", scalarQ 2 kmpsUnit), ("d_z", scalarQ 3 kmpsUnit)]⟩

/-- The `RadialVector` class: single field `r`. -/
def radVecCls : VClass := ⟨"RadialVector", ["r"], [], "Cartesian1DVector"⟩

/-- The `RadialDifferential` class: single field `d_r`. -/
def radDifCls : VClass := ⟨"RadialDifferential", ["d_r"], [], "CartesianDifferential1D"⟩

/-- `RadialDifferential(Quantity(1, "m/s"))`. -/
def exRadDif : Vec := ⟨radDifCls, [("d_r", scalarQ 1 mpsUnit)]⟩

/-- The `CartesianNDVector` class: single stacked field `q`. -/
def ndVecCls : VClass := ⟨"CartesianNDVector", ["q"], [], "CartesianNDVector"⟩

/-- The `CartesianDifferentialND` class: single stacked field `d_q`. -/
def ndDifCls : VClass := ⟨"CartesianDifferentialND", ["d_q"], [], "CartesianDifferentialND"⟩

/-- An N-D vector whose stacked array has batch shape `(2, 2)` and
feature axis 3. -/
def exNDVec : Vec := ⟨ndVecCls, [("q", ⟨[2, 2, 3], List.replicate 12 0, mUnit⟩)]⟩

/-- An N-D differential with the same stacked shape `(2, 2, 3)`. -/
def exNDDif : Vec := ⟨ndDifCls, [("d_q", ⟨[2, 2, 3], List.replicate 12 0, kmpsUnit⟩)]⟩

/-- An N-D vector with two batch axes `(2, 3)` and feature axis 4. -/
def exNDVec234 : Vec := ⟨ndVecCls, [("q", ⟨[2, 3, 4], List.replicate 24 0, mUnit⟩)]⟩

/-- An N-D differential with two batch axes `(2, 3)` and feature axis 4. -/
def exNDDif234 : Vec := ⟨ndDifCls, [("d_q", ⟨[2, 3, 4], List.replicate 24 0, kmpsUnit⟩)]⟩

/-- An N-D vector with a single axis `(4,)` (no batch axis at all). -/
def exNDVec1 : Vec := ⟨ndVecCls, [("q", ⟨[4], List.replicate 4 0, mUnit⟩)]⟩

/-- A concrete `Cartesian2DVector` with a batched `x` and a scalar `y`. -/
def exC2 : Cartesian2DVector := ⟨⟨[2], [1, 2], mUnit⟩, scalarQ 3 kmUnit⟩

/-- A concrete `CartesianDifferential2D` with a batched `d_x` and a
scalar `d_y`. -/
def exD2 : CartesianDifferential2D := ⟨⟨[2], [1, 2], kmpsUnit⟩, scalarQ 5 kmpsUnit⟩

/-! ### Helper lemmas -/

theorem except_bind_ok {α β : Type} (x : α) (f : α → Except String β) :
    (Except.ok x >>= f) = f x := rfl

theorem except_map_ok {α β : Type} (x : α) (f : α → β) :
    Except.map f (Except.ok x : Except String α) = Except.ok (f x) := rfl

theorem exceptMapM_ok {α β : Type} (f : α → Except String β) (g : α → β) :
    ∀ l : List α, (∀ a ∈ l, f a = .ok (g a)) → l.mapM f = .ok (l.map g) := by
  intro l
  induction l with
  | nil => intro _; rfl
  | cons a t ih =>
      intro h
      rw [List.mapM_cons, h a (List.mem_cons_self a t), except_bind_ok,
        ih (fun b hb => h b (List.mem_cons_of_mem a hb)), except_bind_ok]
      rfl

theorem optionMapM_congr {α β : Type} (f g : α → Option β) :
    ∀ l : List α, (∀ a ∈ l, f a = g a) → l.mapM f = l.mapM g := by
  intro l
  induction l with
  | nil => intro _; rfl
  | cons a t ih =>
      intro h
      rw [List.mapM_cons, List.mapM_cons, h a (List.mem_cons_self a t),
        ih (fun b hb => h b (List.mem_cons_of_mem a hb))]

theorem optionMapM_some {α β : Type} (f : α → Option β) (g : α → β) :
    ∀ l : List α, (∀ a ∈ l, f a = some (g a)) → l.mapM f = some (l.map g) := by
  intro l
  induction l with
  | nil => intro _; rfl
  | cons a t ih =>
      intro h
      rw [List.mapM_cons, h a (List.mem_cons_self a t),
        ih (fun b hb => h b (List.mem_cons_of_mem a hb))]
      rfl

theorem lookup_append {β : Type} (l₁ l₂ : List (String × β)) (d : String) :
    (l₁ ++ l₂).lookup d = ((l₁.lookup d).orElse (fun _ => l₂.lookup d)) := by
  induction l₁ with
  | nil => rfl
  | cons a t ih =>
      by_cases h : d = a.1
      · simp [List.lookup, h]
      · simp [List.lookup, beq_eq_false_iff_ne.mpr h, ih]

theorem lookup_self_of_nodup {β : Type} :
    ∀ (l : List (String × β)) (kv : String × β), kv ∈ l → (l.map Prod.fst).Nodup →
      l.lookup kv.1 = some kv.2 := by
  intro l
  induction l with
  | nil => intro kv h; exact absurd h (List.not_mem_nil kv)
  | cons a t ih =>
      intro kv hmem hnd
      rcases List.mem_cons.mp hmem with h | h
      · subst h; simp [List.lookup]
      · have hka : kv.1 ≠ a.1 := by
          intro he
          have : a.1 ∈ t.map Prod.fst := he ▸ List.mem_map_of_mem Prod.fst h
          exact (List.nodup_cons.mp (by simpa using hnd)).1 this
        simp only [List.lookup, beq_eq_false_iff_ne.mpr hka]
        exact ih kv h (List.nodup_cons.mp (by simpa using hnd)).2

theorem lookupAll_self {β : Type} :
    ∀ (l : List (String × β)), (l.map Prod.fst).Nodup →
      (l.map Prod.fst).mapM (fun f => (l.lookup f).map (fun q => (f, q))) = some l := by
  intro l
  induction l with
  | nil => intro _; rfl
  | cons a t ih =>
      intro hnd
      have hnd' : a.1 ∉ t.map Prod.fst ∧ (t.map Prod.fst).Nodup := by
        rw [List.map_cons, List.nodup_cons] at hnd
        exact hnd
      simp only [List.map_cons, List.mapM_cons]
      have h2 : (t.map Prod.fst).mapM
          (fun f => ((a :: t).lookup f).map (fun q => (f, q)))
          = (t.map Prod.fst).mapM (fun f => (t.lookup f).map (fun q => (f, q))) := by
        apply optionMapM_congr
        intro f hf
        have hfa : f ≠ a.1 := fun he => hnd'.1 (he ▸ hf)
        simp [List.lookup, beq_eq_false_iff_ne.mpr hfa]
      have h1 : (a :: t).lookup a.1 = some a.2 := by
        cases a; simp [List.lookup]
      rw [h1]
      simp only [Option.map_some', Option.some_bind]
      rw [h2, ih hnd'.2]
      cases a; rfl

theorem mkVec_keysEq (cls : VClass) (m : List (String × Quantity))
    (hk : m.map Prod.fst = cls.fields) (hnd : cls.fields.Nodup) :
    mkVec cls m = .ok ⟨cls, m⟩ := by
  unfold mkVec
  rw [← hk] at hnd ⊢
  rw [lookupAll_self m hnd]
  simp

theorem firstUnitOfDim_cons_self (kv : String × Quantity) (rest : List (String × Quantity))
    (d : String) (h : kv.2.unit.dim = d) :
    firstUnitOfDim (kv :: rest) d = some kv.2.unit := by
  unfold firstUnitOfDim
  rw [List.find?_cons_of_pos _ (by simpa using h)]
  rfl

theorem firstUnitOfDim_cons_ne (kv : String × Quantity) (rest : List (String × Quantity))
    (d : String) (h : ¬ kv.2.unit.dim = d) :
    firstUnitOfDim (kv :: rest) d = firstUnitOfDim rest d := by
  unfold firstUnitOfDim
  rw [List.find?_cons_of_neg _ (by simpa using h)]

theorem firstUnitsAux_lookup (l : List (String × Quantity)) :
    ∀ (acc : List (String × PhysUnit)) (d : String),
      (firstUnitsAux acc l).lookup d
        = (acc.lookup d).orElse (fun _ => firstUnitOfDim l d) := by
  induction l with
  | nil =>
      intro acc d
      unfold firstUnitsAux firstUnitOfDim
      cases h : acc.lookup d <;> simp [Option.orElse]
  | cons kv rest ih =>
      intro acc d
      unfold firstUnitsAux
      by_cases hin : (acc.lookup kv.2.unit.dim).isSome
      · rw [if_pos hin, ih]
        cases h : acc.lookup d with
        | some u => simp [Option.orElse]
        | none =>
            simp only [Option.orElse]
            by_cases hd : kv.2.unit.dim = d
            · rw [hd] at hin
              rw [h] at hin
              exact absurd hin (by simp)
            · rw [firstUnitOfDim_cons_ne kv rest d hd]
      · rw [if_neg hin, ih, lookup_append]
        by_cases hd : kv.2.unit.dim = d
        · have hnone : acc.lookup d = none := by
            rw [← hd]
            exact Option.not_isSome_iff_eq_none.mp hin
          rw [hnone, firstUnitOfDim_cons_self kv rest d hd]
          simp [List.lookup, hd, Option.orElse]
        · have : (List.lookup d [(kv.2.unit.dim, kv.2.unit)]) = none := by
            simp [List.lookup, beq_eq_false_iff_ne.mpr (fun he => hd he.symm)]
          rw [this, firstUnitOfDim_cons_ne kv rest d hd]
          cases h : acc.lookup d <;> simp [Option.orElse]

theorem firstUnitOfDim_self_mem (comps : List (String × Quantity)) (kv : String × Quantity)
    (hmem : kv ∈ comps) :
    ∃ u, firstUnitOfDim comps kv.2.unit.dim = some u ∧ u.dim = kv.2.unit.dim := by
  have hsome : (comps.find? (fun x => x.2.unit.dim = kv.2.unit.dim)).isSome :=
    List.find?_isSome.mpr ⟨kv, hmem, by simp⟩
  obtain ⟨a, ha⟩ := Option.isSome_iff_exists.mp hsome
  refine ⟨a.2.unit, ?_, ?_⟩
  · unfold firstUnitOfDim
    rw [ha]
    rfl
  · have := List.find?_some ha
    simpa using this

/-- C1: `to_units(ToUnitsOptions.consistent)` returns a new instance of
the same class in which every component is converted to the reference
unit of its own physical dimension, the reference unit of a dimension
being the unit of the first component of that dimension in declared
field order; in particular a first-seen component is left unchanged. -/
theorem toUnitsConsistent_firstSeen (v : Vec) (hpos : unitsPos v = true) :
    vecToUnitsConsistent v = .ok ⟨v.cls, v.comps.map (consistentComp v.comps)⟩
    ∧ ∀ kv ∈ v.comps,
        (consistentComp v.comps kv).1 = kv.1
        ∧ (∀ u, firstUnitOfDim v.comps kv.2.unit.dim = some u →
            (consistentComp v.comps kv).2.unit = u)
        ∧ (firstUnitOfDim v.comps kv.2.unit.dim = some kv.2.unit →
            consistentComp v.comps kv = kv) := by
  constructor
  · unfold vecToUnitsConsistent
    have hper : ∀ kv ∈ v.comps,
        (match (firstUnitsAux [] v.comps).lookup kv.2.unit.dim with
         | some u => (kv.2.to_units u).map (fun q => (kv.1, q))
         | none => (.error "KeyError" : Except String (String × Quantity)))
          = .ok (consistentComp v.comps kv) := by
      intro kv hmem
      obtain ⟨u, hu, hud⟩ := firstUnitOfDim_self_mem v.comps kv hmem
      have hl : (firstUnitsAux [] v.comps).lookup kv.2.unit.dim = some u := by
        rw [firstUnitsAux_lookup v.comps [] kv.2.unit.dim]
        simpa [List.lookup, Option.orElse] using hu
      rw [hl]
      show (kv.2.to_units u).map (fun q => (kv.1, q)) = Except.ok (consistentComp v.comps kv)
      unfold Quantity.to_units
      rw [if_pos hud.symm]
      unfold consistentComp
      rw [hu]
      rfl
    rw [exceptMapM_ok _ (consistentComp v.comps) v.comps hper, except_bind_ok]
    rfl
  · intro kv hmem
    obtain ⟨u, hu, hud⟩ := firstUnitOfDim_self_mem v.comps kv hmem
    refine ⟨?_, ?_, ?_⟩
    · unfold consistentComp
      rw [hu]
    · intro u' hu'
      unfold consistentComp
      rw [hu']
      rfl
    · intro hself
      unfold consistentComp
      rw [hself]
      show (kv.1, kv.2.convertTo kv.2.unit) = kv
      have hs : kv.2.unit.scale ≠ 0 := by
        have := List.all_eq_true.mp hpos kv hmem
        have hlt : (0 : ℚ) < kv.2.unit.scale := by simpa using this
        exact ne_of_gt hlt
      unfold Quantity.convertTo
      rw [div_self hs]
      obtain ⟨k, q⟩ := kv
      cases q
      simp

/-- C1 witness: on `Cartesian2DVector(x=1 m, y=2 km)` the hypothesis
holds and the consistent conversion keeps `x = 1 m` and turns `y` into
`2000 m`, the unit of the first length component. -/
theorem toUnitsConsistent_firstSeen_witness :
    unitsPos exCart2 = true
    ∧ vecToUnitsConsistent exCart2
        = .ok ⟨exCart2.cls, exCart2.comps.map (consistentComp exCart2.comps)⟩
    ∧ exCart2.comps.map (consistentComp exCart2.comps)
        = [("x", scalarQ 1 mUnit), ("y", ⟨[], [2000], mUnit⟩)] :=
  ⟨by decide, (toUnitsConsistent_firstSeen exCart2 (by decide)).1,
   by norm_num [exCart2, cart2cls, scalarQ, mUnit, kmUnit, consistentComp, firstUnitOfDim,
     Quantity.convertTo, List.find?]⟩

/-- C2: constructing a vector from a stacked Quantity array whose
trailing axis length equals the declared component count gives exactly
the same result as constructing it from the mapping that sends the i-th
declared field name to the i-th trailing slice `obj[..., i]`. -/
theorem constructor_quantity_eq_mapping (cls : VClass) (q : Quantity)
    (h : q.shape.getLast? = some cls.fields.length) :
    constructorQuantity cls q
      = constructorMapping cls (cls.fields.enum.map (fun p => (p.2, q.sliceLast p.1))) := by
  unfold constructorQuantity constructorMapping
  rw [h]
  simp

/-- C2 witness: `Cartesian3DVector` built from `[1, 2, 3] m` equals the
one built from the slice mapping, which is `{x: 1 m, y: 2 m, z: 3 m}`. -/
theorem constructor_quantity_eq_mapping_witness :
    q123.shape.getLast? = some cart3cls.fields.length
    ∧ constructorQuantity cart3cls q123
        = constructorMapping cart3cls
            (cart3cls.fields.enum.map (fun p => (p.2, q123.sliceLast p.1)))
    ∧ cart3cls.fields.enum.map (fun p => (p.2, q123.sliceLast p.1))
        = [("x", scalarQ 1 mUnit), ("y", scalarQ 2 mUnit), ("z", scalarQ 3 mUnit)]
    ∧ constructorQuantity cart3cls q123 = .ok exCart3 :=
  ⟨by decide, constructor_quantity_eq_mapping cart3cls q123 (by decide), by decide, by decide⟩

/-- C3: the vector-from-vector constructor returns the very same
instance when the types match exactly, raises a `TypeError` when the
argument is not an instance of the target class, and otherwise (a strict
subclass) rebuilds a new instance of the target class from the
argument's components. -/
theorem constructor_fromVector_cases (C : VClass) (v : Vec) :
    (v.cls = C → constructorFromVec C v = .sameInstance)
    ∧ (¬ v.isInstName C.name = true →
        constructorFromVec C v
          = .typeError ("Cannot construct " ++ C.name ++ " from " ++ v.cls.name ++ "."))
    ∧ (v.isInstName C.name = true → v.cls ≠ C →
        constructorFromVec C v = .rebuilt (mkVec C v.comps))
    ∧ (v.isInstName C.name = true → v.cls ≠ C → v.comps.map Prod.fst = C.fields →
        C.fields.Nodup → constructorFromVec C v = .rebuilt (.ok ⟨C, v.comps⟩)) := by
  refine ⟨?_, ?_, ?_, ?_⟩
  · intro h
    subst h
    simp [constructorFromVec, Vec.isInstName]
  · intro h
    simp [constructorFromVec, h]
  · intro h1 h2
    simp [constructorFromVec, h1, h2]
  · intro h1 h2 h3 h4
    simp [constructorFromVec, h1, h2, mkVec_keysEq C v.comps h3 h4]

/-- C3 witness: exact type match returns the same instance; an unrelated
class raises the `TypeError`; the strict subclass rebuilds a
`Cartesian3DVector` from the subclass instance's components. -/
theorem constructor_fromVector_cases_witness :
    (exCart3.cls = cart3cls
      ∧ constructorFromVec cart3cls exCart3 = .sameInstance)
    ∧ (¬ exCart3.isInstName sphcls.name = true
      ∧ constructorFromVec sphcls exCart3
          = .typeError "Cannot construct SphericalVector from Cartesian3DVector.")
    ∧ (exSubCart3.isInstName cart3cls.name = true ∧ exSubCart3.cls ≠ cart3cls
      ∧ constructorFromVec cart3cls exSubCart3
          = .rebuilt (.ok ⟨cart3cls, exSubCart3.comps⟩)) :=
  ⟨⟨by decide, (constructor_fromVector_cases cart3cls exCart3).1 (by decide)⟩,
   ⟨by decide, (constructor_fromVector_cases sphcls exCart3).2.1 (by decide)⟩,
   ⟨by decide, by decide,
    (constructor_fromVector_cases cart3cls exSubCart3).2.2.2 (by decide) (by decide)
      (by decide) (by decide)⟩⟩

/-- C4: for a differential `d` whose class is an instance of its own
declared Cartesian class, `d - d` is the zero vector of that class in
that class's units component-wise, `d + d` is `2 * d` component-wise,
both as same-class instances; add/sub with an operand that is not an
instance of the declared Cartesian class raises a `TypeError`. -/
theorem additionMixin_add_sub (d : Vec) (hpos : unitsPos d = true)
    (hnd : nodupKeys d = true) (hinst : d.isInstName d.cls.cartesian = true) :
    vecSub d d = .ok ⟨d.cls, d.comps.map (fun kv => (kv.1, kv.2.zeroLike))⟩
    ∧ vecAdd d d = .ok ⟨d.cls, d.comps.map (fun kv => (kv.1, Quantity.smul 2 kv.2))⟩
    ∧ ∀ other : Vec, other.isInstName d.cls.cartesian = false →
        vecAdd d other
          = .error ("Cannot add " ++ other.cls.name ++ " to " ++ d.cls.cartesian ++ ".")
        ∧ vecSub d other
          = .error ("Cannot subtract " ++ other.cls.name ++ " from " ++ d.cls.cartesian ++ ".") := by
  have hgetattr : ∀ kv ∈ d.comps, d.getattr kv.1 = .ok kv.2 := by
    intro kv hmem
    unfold Vec.getattr
    rw [lookup_self_of_nodup d.comps kv hmem (by simpa [nodupKeys] using hnd)]
  have hscale : ∀ kv ∈ d.comps, kv.2.unit.scale ≠ 0 := by
    intro kv hmem
    have := List.all_eq_true.mp hpos kv hmem
    exact ne_of_gt (by simpa using this)
  refine ⟨?_, ?_, ?_⟩
  · unfold vecSub
    rw [if_neg (by simp [hinst])]
    have hper : ∀ kv ∈ d.comps,
        (d.getattr kv.1 >>= fun ov => (kv.2.subQ ov).map (fun s => (kv.1, s)))
          = .ok (kv.1, kv.2.zeroLike) := by
      intro kv hmem
      rw [hgetattr kv hmem, except_bind_ok]
      unfold Quantity.subQ
      rw [if_pos rfl, if_pos rfl, except_map_ok]
      unfold Quantity.zeroLike
      simp only [div_self (hscale kv hmem), mul_one]
      rw [List.zipWith_same]
      simp only [sub_self]
    rw [exceptMapM_ok _ (fun kv => (kv.1, kv.2.zeroLike)) d.comps hper, except_bind_ok]
    rfl
  · unfold vecAdd
    rw [if_neg (by simp [hinst])]
    have hper : ∀ kv ∈ d.comps,
        (d.getattr kv.1 >>= fun ov => (kv.2.addQ ov).map (fun s => (kv.1, s)))
          = .ok (kv.1, Quantity.smul 2 kv.2) := by
      intro kv hmem
      rw [hgetattr kv hmem, except_bind_ok]
      unfold Quantity.addQ
      rw [if_pos rfl, if_pos rfl, except_map_ok]
      unfold Quantity.smul
      simp only [div_self (hscale kv hmem), mul_one]
      rw [List.zipWith_same]
      simp only [← two_mul]
    rw [exceptMapM_ok _ (fun kv => (kv.1, Quantity.smul 2 kv.2)) d.comps hper,
      except_bind_ok]
    rfl
  · intro other hother
    constructor
    · unfold vecAdd
      rw [if_pos (by simp [hother])]
    · unfold vecSub
      rw [if_pos (by simp [hother])]

/-- C4 witness: for the concrete `CartesianDifferential3D` in km/s, the
hypotheses hold, `d - d` has all components `0 km/s` and `d + d` has the
components doubled. -/
theorem additionMixin_add_sub_witness :
    unitsPos exDif3 = true ∧ nodupKeys exDif3 = true
    ∧ exDif3.isInstName exDif3.cls.cartesian = true
    ∧ vecSub exDif3 exDif3 = .ok ⟨exDif3.cls, exDif3.comps.map (fun kv => (kv.1, kv.2.zeroLike))⟩
    ∧ vecAdd exDif3 exDif3
        = .ok ⟨exDif3.cls, exDif3.comps.map (fun kv => (kv.1, Quantity.smul 2 kv.2))⟩
    ∧ exDif3.comps.map (fun kv => (kv.1, Quantity.smul 2 kv.2))
        = [("d_x", scalarQ 2 kmpsUnit), ("d_y", scalarQ 4 kmpsUnit), ("d_z", scalarQ 6 kmpsUnit)] :=
  ⟨by decide, by decide, by decide,
   (additionMixin_add_sub exDif3 (by decide) (by decide) (by decide)).1,
   (additionMixin_add_sub exDif3 (by decide) (by decide) (by decide)).2.1,
   by norm_num [exDif3, dif3cls, scalarQ, kmpsUnit, Quantity.smul]⟩

theorem pyDrop2_dd (s : String) : pyDrop2 ("d_" ++ s) = s := by
  cases s with
  | mk data => rfl

/-- C5: multiplying a differential by a scalar Quantity builds an
instance of the declared integral (position) class from the mapping that
strips the rate-of-change prefix `d_` from each component name and
multiplies each component by the scalar: the resulting component named
`s` is the differential component named `d_` + `s` times the scalar. -/
theorem differential_mul_quantity (integralCls : VClass) (self : Vec) (t : Quantity)
    (hnames : self.comps.map Prod.fst = integralCls.fields.map (fun s => "d_" ++ s))
    (hnd : integralCls.fields.Nodup) :
    difMulQuantity integralCls self t
      = .ok ⟨integralCls, self.comps.map (fun kv => (pyDrop2 kv.1, kv.2.mulQ t))⟩
    ∧ (self.comps.map (fun kv => (pyDrop2 kv.1, kv.2.mulQ t))).map Prod.fst
        = integralCls.fields := by
  have hkeys : (self.comps.map (fun kv => (pyDrop2 kv.1, kv.2.mulQ t))).map Prod.fst
      = integralCls.fields := by
    rw [List.map_map]
    have h1 : (Prod.fst ∘ fun kv : String × Quantity => (pyDrop2 kv.1, kv.2.mulQ t))
        = fun kv : String × Quantity => pyDrop2 kv.1 := rfl
    rw [h1]
    have h2 : self.comps.map (fun kv : String × Quantity => pyDrop2 kv.1)
        = (self.comps.map Prod.fst).map pyDrop2 := by
      rw [List.map_map]
      rfl
    rw [h2, hnames, List.map_map]
    have h3 : ∀ s ∈ integralCls.fields, (pyDrop2 ∘ fun s => "d_" ++ s) s = id s := by
      intro s _hs
      exact pyDrop2_dd s
    rw [List.map_congr_left h3, List.map_id]
  refine ⟨?_, hkeys⟩
  unfold difMulQuantity constructorMapping
  exact mkVec_keysEq _ _ hkeys hnd

/-- C5 witness: `RadialDifferential(1 m/s) * Quantity(2, "s")` builds a
`RadialVector` whose component `r` is `2` in the combined unit. -/
theorem differential_mul_quantity_witness :
    exRadDif.comps.map Prod.fst = radVecCls.fields.map (fun s => "d_" ++ s)
    ∧ radVecCls.fields.Nodup
    ∧ difMulQuantity radVecCls exRadDif (scalarQ 2 sUnit)
        = .ok ⟨radVecCls, exRadDif.comps.map (fun kv => (pyDrop2 kv.1, kv.2.mulQ (scalarQ 2 sUnit)))⟩
    ∧ exRadDif.comps.map (fun kv => (pyDrop2 kv.1, kv.2.mulQ (scalarQ 2 sUnit)))
        = [("r", ⟨[], [2], mpsUnit.mulU sUnit⟩)] :=
  ⟨by decide, by decide,
   (differential_mul_quantity radVecCls exRadDif (scalarQ 2 sUnit) (by decide) (by decide)).1,
   by norm_num [exRadDif, radDifCls, scalarQ, Quantity.mulQ, pyDrop2]⟩

/-- C6 counterexample: the extra positional argument `0` is a non-empty
tuple of extras, yet `represent_as` emits no warning at all, because the
source guards the warning with `any(args)` (truthiness) rather than with
the presence of extra arguments; the transformed result is still
returned. -/
theorem representAs_extraArgs_cex :
    [PyVal.pyint 0] ≠ ([] : List PyVal)
    ∧ (difRepresentAs (fun s _ _ => s) exRadDif radVecCls exRadDif [PyVal.pyint 0]).1 = []
    ∧ (difRepresentAs (fun s _ _ => s) exRadDif radVecCls exRadDif [PyVal.pyint 0]).2
        = exRadDif :=
  ⟨by decide, rfl, rfl⟩

/-- C6 amended: extra positional arguments never change the result of a
differential's `represent_as` (it always equals the call without
extras), and the `UserWarning` is emitted exactly when at least one
extra argument is truthy in Python's sense (`any(args)`), so falsy
extras such as `0` or `None` produce no warning. -/
theorem representAs_extraArgs_amended (core : Vec → VClass → Vec → Vec) (self : Vec)
    (target : VClass) (position : Vec) (args : List PyVal) :
    (difRepresentAs core self target position args).2
      = (difRepresentAs core self target position []).2
    ∧ ((difRepresentAs core self target position args).1 ≠ []
        ↔ args.any PyVal.truthy = true) := by
  unfold difRepresentAs
  refine ⟨rfl, ?_⟩
  by_cases h : args.any PyVal.truthy <;> simp [h]

/-- C7: constructing from a stacked Quantity array fails with the
shape-mismatch error exactly when the trailing axis length differs from
the declared component count; when it matches, construction succeeds and
the i-th declared field receives the trailing slice `obj[..., i]`. -/
theorem constructor_quantity_shape_check (cls : VClass) (q : Quantity) (s : List ℕ) (m : ℕ)
    (hs : q.shape = s ++ [m]) (hnd : cls.fields.Nodup) :
    (m ≠ cls.fields.length →
      constructorQuantity cls q
        = .error ("Cannot construct " ++ cls.name ++ " from array with that shape."))
    ∧ (m = cls.fields.length →
      constructorQuantity cls q
        = .ok ⟨cls, cls.fields.enum.map (fun p => (p.2, q.sliceLast p.1))⟩) := by
  have hlast : q.shape.getLast? = some m := by
    rw [hs]
    exact List.getLast?_concat s
  constructor
  · intro h
    unfold constructorQuantity
    rw [hlast]
    simp [h]
  · intro h
    subst h
    unfold constructorQuantity
    rw [hlast]
    have hk : (cls.fields.enum.map (fun p => (p.2, q.sliceLast p.1))).map Prod.fst
        = cls.fields := by
      rw [List.map_map]
      have h1 : (Prod.fst ∘ fun p : ℕ × String => (p.2, q.sliceLast p.1))
          = fun p : ℕ × String => p.2 := rfl
      rw [h1]
      exact List.enum_map_snd cls.fields
    simp [mkVec_keysEq cls _ hk hnd]

/-- C7 witness: `[1, 2, 3] m` cannot build a `Cartesian2DVector` (the
trailing axis is 3, not 2) but builds a `Cartesian3DVector`, whose
fields receive the three slices. -/
theorem constructor_quantity_shape_check_witness :
    q123.shape = [] ++ [3]
    ∧ (3 ≠ cart2cls.fields.length
        ∧ constructorQuantity cart2cls q123
            = .error "Cannot construct Cartesian2DVector from array with that shape.")
    ∧ (3 = cart3cls.fields.length
        ∧ constructorQuantity cart3cls q123
            = .ok ⟨cart3cls, cart3cls.fields.enum.map (fun p => (p.2, q123.sliceLast p.1))⟩) :=
  ⟨by decide,
   ⟨by decide,
    (constructor_quantity_shape_check cart2cls q123 [] 3 (by decide) (by decide)).1 (by decide)⟩,
   ⟨by decide,
    (constructor_quantity_shape_check cart3cls q123 [] 3 (by decide) (by decide)).2 (by decide)⟩⟩

/-- C8: evaluation of the N-D array methods.  For the vector (field `q`,
stacked shape `(2, 2, 3)`) `flatten` and `reshape(4)` behave as claimed:
batch axes flattened or reshaped, feature axis 3 preserved.  For the
differential (field `d_q`, same shape) both operations fail: `flatten`
passes its result to `replace` under the field name `q`, which the
differential class does not have, and `reshape` reads the non-existent
attribute `self.q`, contradicting the claim. -/
theorem ndVector_flatten_reshape_eval :
    ndVecFlatten exNDVec = .ok ⟨ndVecCls, [("q", ⟨[4, 3], List.replicate 12 0, mUnit⟩)]⟩
    ∧ ndVecReshape exNDVec [4]
        = .ok ⟨ndVecCls, [("q", ⟨[4, 3], List.replicate 12 0, mUnit⟩)]⟩
    ∧ ndDifFlatten exNDDif
        = .error "TypeError: replace() got an unexpected keyword argument q"
    ∧ ndDifReshape exNDDif [4] = .error "AttributeError: q" :=
  ⟨by decide, by decide, by decide, by decide⟩

/-- C9: evaluation of the N-D `mT` property.  With two non-feature axes
(stacked shape `(2, 3, 4)`) the claim demands a success with the two
batch axes swapped, but the source builds the transpose permutation
`(*range(ndim - 2), ndim - 2, ndim - 3)` over the full array rank —
`(0, 1, 0)` here — which repeats axis 0 and omits the feature axis, so
the backend rejects it; the differential fails the same way (and would
additionally pass the result as the non-existent field `q`).  With a
single axis the guard `ndim < 2` fires. -/
theorem ndVector_mT_eval :
    ndVecMT exNDVec234
      = .error "TypeError: transpose permutation is not a permutation of operand dimensions"
    ∧ ndDifMT exNDDif234
      = .error "TypeError: transpose permutation is not a permutation of operand dimensions"
    ∧ ndVecMT exNDVec
      = .error "TypeError: transpose permutation is not a permutation of operand dimensions"
    ∧ ndVecMT exNDVec1
      = .error "ValueError: x must be at least two-dimensional for matrix_transpose" :=
  ⟨by decide, by decide, by decide, by decide⟩

theorem stack2_ok (a b : Quantity) (h : a.unit.dim = b.unit.dim) (hs : a.shape = b.shape) :
    ∃ q, stack2 a b = .ok q ∧ q.shape = a.shape ++ [2] ∧ q.unit = a.unit := by
  unfold stack2
  rw [if_pos h, if_pos hs]
  exact ⟨_, rfl, rfl, rfl⟩

/-- C10: the registered 2D conversions to Quantity.  `vec_to_q` is the
composition of `represent_as(Cartesian2DVector)` (the engine passed as
`repAs`, preserving the vector's broadcast shape), broadcasting both
components to the common shape, and stacking along a new trailing axis,
giving shape `(*v.shape, 2)` in length units; `vec_diff_to_q` stacks the
full-shaped differential components without representation change,
giving shape `(*d.shape, 2)` in speed units. -/
theorem vec_to_q_shape_units {α : Type} (repAs : α → Cartesian2DVector)
    (vshape : α → List ℕ) (v : α)
    (hb : broadcast2 (repAs v).x.shape (repAs v).y.shape = some (vshape v))
    (hxd : (repAs v).x.unit.dim = "length") (hyd : (repAs v).y.unit.dim = "length")
    (d : CartesianDifferential2D) (sd : List ℕ)
    (hbd : broadcast2 d.d_x.shape d.d_y.shape = some sd)
    (hdx : d.d_x.unit.dim = "speed") (hdy : d.d_y.unit.dim = "speed") :
    (∃ q, vec_to_q repAs v = .ok q ∧ q.shape = vshape v ++ [2] ∧ q.unit.dim = "length")
    ∧ (∃ q, vec_diff_to_q d = .ok q ∧ q.shape = sd ++ [2] ∧ q.unit.dim = "speed") := by
  constructor
  · have h1 : vec_to_q repAs v
        = stack2 ((repAs v).x.broadcastTo (vshape v)) ((repAs v).y.broadcastTo (vshape v)) := by
      unfold vec_to_q fullShaped2
      rw [hb]
      rfl
    obtain ⟨q, hq, hsh, hun⟩ := stack2_ok ((repAs v).x.broadcastTo (vshape v))
      ((repAs v).y.broadcastTo (vshape v)) (by simpa [Quantity.broadcastTo] using hxd.trans hyd.symm) rfl
    refine ⟨q, h1.trans hq, ?_, ?_⟩
    · simpa [Quantity.broadcastTo] using hsh
    · rw [hun]
      simpa [Quantity.broadcastTo] using hxd
  · have h1 : vec_diff_to_q d
        = stack2 (d.d_x.broadcastTo sd) (d.d_y.broadcastTo sd) := by
      unfold vec_diff_to_q fullShapedD2
      rw [hbd]
      rfl
    obtain ⟨q, hq, hsh, hun⟩ := stack2_ok (d.d_x.broadcastTo sd) (d.d_y.broadcastTo sd)
      (by simpa [Quantity.broadcastTo] using hdx.trans hdy.symm) rfl
    refine ⟨q, h1.trans hq, ?_, ?_⟩
    · simpa [Quantity.broadcastTo] using hsh
    · rw [hun]
      simpa [Quantity.broadcastTo] using hdx

/-- C10 witness: a concrete `Cartesian2DVector` (batched `x` in m,
scalar `y` in km) with the identity `represent_as` has broadcast shape
`(2,)` and converts to a Quantity of shape `(2, 2)` in length units; the
concrete differential converts to shape `(2, 2)` in speed units. -/
theorem vec_to_q_shape_units_witness :
    broadcast2 exC2.x.shape exC2.y.shape = some [2]
    ∧ exC2.x.unit.dim = "length" ∧ exC2.y.unit.dim = "length"
    ∧ broadcast2 exD2.d_x.shape exD2.d_y.shape = some [2]
    ∧ exD2.d_x.unit.dim = "speed" ∧ exD2.d_y.unit.dim = "speed"
    ∧ (∃ q, vec_to_q (fun w : Cartesian2DVector => w) exC2 = .ok q
        ∧ q.shape = [2] ++ [2] ∧ q.unit.dim = "length")
    ∧ (∃ q, vec_diff_to_q exD2 = .ok q ∧ q.shape = [2] ++ [2] ∧ q.unit.dim = "speed") :=
  ⟨by decide, by decide, by decide, by decide, by decide, by decide,
   (vec_to_q_shape_units (fun w : Cartesian2DVector => w) (fun _ => [2]) exC2
      (by decide) (by decide) (by decide) exD2 [2] (by decide) (by decide) (by decide)).1,
   (vec_to_q_shape_units (fun w : Cartesian2DVector => w) (fun _ => [2]) exC2
      (by decide) (by decide) (by decide) exD2 [2] (by decide) (by decide) (by decide)).2⟩

end Coordinax
